import Mathlib

/-!
Verification development for the veille-marine2 repository
(file src/src/app/api/fetch-articles/route.ts).

The route is modelled as pure Lean functions over an explicit environment
that carries the behaviour of the two external collaborators (the SerpAPI
news source and the Supabase data store) and of the JavaScript runtime
(the wall clock and the Date parser).  Fallible code is modelled with
`Except String`; an `Except.error` value stands for a thrown JavaScript
exception whose message is the carried string.
-/

namespace VeilleMarine

/-- The `source` field of a raw SerpAPI item, per the TypeScript interface
`SerpApiNewsResult`: it is either a plain string or an object with an
optional `title` field.  The field itself is optional; absence is modelled
by wrapping in `Option` at the use site. -/
inductive RawSource where
  | str (s : String)
  | obj (title : Option String)
deriving DecidableEq

/-- One raw item of the SerpAPI `news_results` array, per the TypeScript
interface `SerpApiNewsResult` in the source. -/
structure SerpApiNewsResult where
  title : String
  link : String
  snippet : String
  date : String
  source : Option RawSource
deriving DecidableEq

/-- The canonical in-memory article, per the TypeScript interface `Article`
in the source.  A missing raw `date` is modelled as the empty string, which
is exactly the set of values the JavaScript truthiness test on a string
field distinguishes. -/
structure Article where
  title : String
  link : String
  snippet : String
  date : String
  source : String
  created_at : String
deriving DecidableEq

/-- The normalisation of the raw `source` field, from the map callback in
`fetchArticles`:
`typeof article.source === 'string' ? article.source : article.source?.title || 'Unknown'`.
JavaScript `||` takes its right operand when the left one is falsy, and
both `undefined` and the empty string are falsy, so an object whose `title`
is absent or empty yields the sentinel, while a plain string passes through
unchanged even when empty. -/
def normalizeSource : Option RawSource → String
  | some (RawSource.str s) => s
  | some (RawSource.obj (some t)) => if t = "" then "Unknown" else t
  | some (RawSource.obj none) => "Unknown"
  | none => "Unknown"

/-- The per-item normaliser from the map callback in `fetchArticles`:
title, link, snippet and date pass through, `source` is flattened by
`normalizeSource`, and `created_at` is stamped with the current time
(`new Date().toISOString()`), passed here as `now`. -/
def normalizeResult (now : String) (r : SerpApiNewsResult) : Article :=
  { title := r.title
    link := r.link
    snippet := r.snippet
    date := r.date
    source := normalizeSource r.source
    created_at := now }

/-- The shape of the `news_results` field of a parsed SerpAPI response
body: absent, present but not an array, or an array of raw items.  The
source guards with `!data.news_results || !Array.isArray(data.news_results)`. -/
inductive NewsField where
  | missing
  | notArray
  | arr (rs : List SerpApiNewsResult)
deriving DecidableEq

/-- The observable outcome of one `fetch`-and-parse interaction with
SerpAPI, as seen by `fetchArticles`: the `fetch` call itself rejects (or
`response.text()` rejects), the response is non-ok with an error text, the
`response.json()` call rejects, or a body is obtained whose `news_results`
field has one of the three shapes of `NewsField`. -/
inductive FetchStep where
  | fetchThrow (msg : String)
  | httpError (errorText : String)
  | jsonThrow (msg : String)
  | ok (nf : NewsField)
deriving DecidableEq

/-- The body of `fetchArticles` up to but excluding its `catch` clause.
A non-ok response is logged and yields an empty array (an ordinary return,
not a throw); a missing or non-array `news_results` likewise; otherwise the
items are mapped through the normaliser.  A rejecting `fetch` or
`response.json()` surfaces as an exception. -/
def fetchArticlesBody (now : String) (o : FetchStep) : Except String (List Article) :=
  match o with
  | FetchStep.fetchThrow m => Except.error m
  | FetchStep.httpError _ => Except.ok []
  | FetchStep.jsonThrow m => Except.error m
  | FetchStep.ok nf =>
    match nf with
    | NewsField.missing => Except.ok []
    | NewsField.notArray => Except.ok []
    | NewsField.arr rs => Except.ok (rs.map (normalizeResult now))

/-- The whole of `fetchArticles`: its `catch` clause logs any exception of
the body and returns an empty array, so the function is total and never
propagates an exception to its caller. -/
def fetchArticles (now : String) (o : FetchStep) : List Article :=
  match fetchArticlesBody now o with
  | Except.ok l => l
  | Except.error _ => []

/-- A fetch outcome is a failure when it is anything other than an ok
response with an array-shaped `news_results`. -/
def isFailureStep : FetchStep → Bool
  | FetchStep.ok (NewsField.arr _) => false
  | _ => true

theorem fetchArticles_of_failure (now : String) (o : FetchStep)
    (h : isFailureStep o = true) : fetchArticles now o = [] := by
  cases o with
  | fetchThrow m => rfl
  | httpError e => rfl
  | jsonThrow m => rfl
  | ok nf =>
    cases nf with
    | missing => rfl
    | notArray => rfl
    | arr rs => simp [isFailureStep] at h

/-- The keyword catalog from the source, in the order `Object.entries`
yields it (string keys in insertion order): `arabic` with 6 phrases, then
`french` with 7, then `spanish` with 7. -/
def keywords : List (String × List String) :=
  [("arabic",
    ["البحرية الملكية",
     "البحرية الملكية المغربية",
     "البحرية المغربية",
     "القوة البحرية المغربية",
     "سفينة حربية مغربية",
     "فرقاطة مغربية"]),
   ("french",
    ["La Marine royale",
     "La Marine Royale Marocaine",
     "La Marine marocaine",
     "L\x27Armée Navale Marocaine",
     "Force Navale Marocaine",
     "Navire de guerre marocain",
     "Frégate marocaine"]),
   ("spanish",
    ["la Marina Real",
     "la Marina Real Marroquí",
     "la Marina Marroquí",
     "las Fuerzas Navales Marroquíes",
     "la Fuerza Naval Marroquí",
     "buque de guerra marroquí",
     "fragata marroquí"])]

/-- The catalog flattened to (language, keyword) pairs in iteration order
of the two nested loops of `POST`. -/
def catalogPairs : List (String × String) :=
  keywords.flatMap (fun e => e.2.map (fun kw => (e.1, kw)))

/-- The `hl` locale parameter of the SerpAPI request, from the ternary in
`fetchArticles`:
`language === 'arabic' ? 'ar' : language === 'french' ? 'fr' : 'es'`. -/
def hlParam (language : String) : String :=
  if language = "arabic" then "ar" else if language = "french" then "fr" else "es"

/-- The query parameters appended to the SerpAPI search URL by
`fetchArticles`, in source order. -/
def searchParams (apiKey keyword language : String) : List (String × String) :=
  [("api_key", apiKey),
   ("q", keyword),
   ("engine", "google"),
   ("google_domain", "google.com"),
   ("gl", "ma"),
   ("hl", hlParam language),
   ("tbm", "nws"),
   ("tbs", "qdr:d"),
   ("num", "100")]

/-- A persisted row as built by the projection inside `insertArticles`
(the element shape of `transformedArticles`). -/
structure TransformedArticle where
  url : String
  title : String
  description : String
  published_at : String
  created_at : String
deriving DecidableEq

/-- The environment of one `POST` invocation: the wall clock, the
JavaScript `Date` parser, the per-keyword SerpAPI outcome, the outcomes of
the two data-store operations, and the pre-existing rows of the `articles`
table.  `parseDate s = none` models `new Date(s)` being an Invalid Date,
on which `toISOString()` throws a RangeError.  `ensureError` is the
outcome of the `createArticlesTable()` call inside `insertArticles`; it is
kept as an environment parameter so that the write path, which is intact
in the source, can be analysed under both outcomes (see
`createArticlesTable` below for what the source version of that call
actually does). -/
structure Env where
  now : String
  parseDate : String → Option String
  fetchOutcome : String → String → FetchStep
  ensureError : Option String
  upsertError : Option String
  store : List TransformedArticle

/-- One observable event of the keyword loop of `POST`: a SerpAPI search
request for a (language, keyword) pair, or a call to `delay(ms)`. -/
inductive Event where
  | request (lang kw : String)
  | pause (ms : Nat)
deriving DecidableEq

/-- The inner `for (const keyword of langKeywords)` loop of `POST` for one
language: each iteration calls `fetchArticles`, appends its results to the
accumulator (appending an empty list when the call contributed nothing,
which is what the `if (articles.length > 0)` guard amounts to), then
awaits `delay(1000)`. -/
def innerLoop (env : Env) (lang : String) (kws : List String)
    (acc : List Event × List Article) : List Event × List Article :=
  kws.foldl
    (fun p kw =>
      (p.1 ++ [Event.request lang kw, Event.pause 1000],
       p.2 ++ fetchArticles env.now (env.fetchOutcome lang kw)))
    acc

/-- The outer `for (const [lang, langKeywords] of Object.entries(keywords))`
loop of `POST`, producing the event trace and the accumulated
`allArticles`. -/
def postLoop (env : Env) : List Event × List Article :=
  keywords.foldl (fun acc e => innerLoop env e.1 e.2 acc) ([], [])

/-- The projection of one `Article` into a row, from the map inside
`insertArticles`.  The `published_at` expression is
`article.date ? new Date(article.date).toISOString() : new Date().toISOString()`:
a falsy (empty) `date` takes the fallback of the current time, while a
truthy `date` is handed to the `Date` parser, whose `toISOString()` throws
a RangeError with message `Invalid time value` when the date does not
parse.  `created_at` is stamped fresh, never copied from the article. -/
def transformArticle (parseDate : String → Option String) (now : String)
    (a : Article) : Except String TransformedArticle :=
  if a.date = "" then
    Except.ok
      { url := a.link
        title := a.title
        description := a.snippet
        published_at := now
        created_at := now }
  else
    match parseDate a.date with
    | some iso =>
      Except.ok
        { url := a.link
          title := a.title
          description := a.snippet
          published_at := iso
          created_at := now }
    | none => Except.error "Invalid time value"

/-- The effect on the `articles` table of one batched
`upsert(transformedArticles, { onConflict: 'url', ignoreDuplicates: true })`
request: rows are considered in batch order and a row is inserted exactly
when no row with its `url` is already present (whether pre-existing or
inserted earlier in the same batch); conflicting rows are silently
ignored. -/
def upsertRows (store : List TransformedArticle)
    (batch : List TransformedArticle) : List TransformedArticle :=
  batch.foldl
    (fun acc row => if acc.any (fun r => r.url = row.url) then acc else acc ++ [row])
    store

/-- The table-ensure function exactly as written in the source.  Its body
begins with `await response.json()` where no `response` is in scope, then
checks an `error` that is also not in scope, and the statement is moreover
not syntactically well formed (`.from('articles')` follows a terminated
statement).  As written, no invocation can perform the trivial read or the
conditional create: every call fails before reaching the data store.  The
parameters model the data-store responses that the evidently intended
read-then-create (a `select` probe of `articles`, then an `rpc` creating
the table when the probe errors) would consume; the function as written
never consults them. -/
def createArticlesTable (readError createError : Option String) :
    Except String Bool :=
  Except.error "ReferenceError: response is not defined"

/-- Modelled from the spec: the intended check-then-create that the mangled
body of `createArticlesTable` was evidently meant to perform (and whose
fragments — the `.from('articles').select('*').limit(1)` chain, the
`if (error)` guard, and the `rpc('create_articles_table', ...)` call — are
still present in the source).  Returns whether a schema-creation request
was issued; a creation error propagates. -/
def createArticlesTableIntended (readError createError : Option String) :
    Except String Bool :=
  match readError with
  | none => Except.ok false
  | some _ =>
    match createError with
    | none => Except.ok true
    | some e => Except.error e

/-- The whole of `insertArticles`: an empty input returns at once; then the
table-ensure call runs (its outcome is `env.ensureError`, see `Env`); then
every article is projected through `transformArticle` — JavaScript `map`
aborts at the first throwing element — and one batched upsert request is
issued.  The second component is the list of upsert batches actually sent
to the data store (a failing upsert was still sent).  Any error is
re-thrown after logging, so it propagates to the caller. -/
def insertArticles (env : Env) (articles : List Article) :
    Except String (List TransformedArticle) × List (List TransformedArticle) :=
  if articles.length = 0 then
    (Except.ok env.store, [])
  else
    match env.ensureError with
    | some e => (Except.error e, [])
    | none =>
      match articles.mapM (transformArticle env.parseDate env.now) with
      | Except.error e => (Except.error e, [])
      | Except.ok rows =>
        match env.upsertError with
        | some e => (Except.error e, [rows])
        | none => (Except.ok (upsertRows env.store rows), [rows])

/-- The JSON body of a route response: `NextResponse.json` of either the
`{ success, message }` shape or the `{ error, details }` shape. -/
inductive Body where
  | message (success : Bool) (message : String)
  | errorDetails (error : String) (details : String)
deriving DecidableEq

/-- An HTTP response of the route: a status code and a JSON body. -/
structure HttpResponse where
  status : Nat
  body : Body
deriving DecidableEq

/-- The `POST` handler: run the keyword loop; if nothing accumulated,
answer 404 with the no-articles body; otherwise call `insertArticles` and
answer 200 with the processed count on success, or let the `catch` clause
answer 500 with `{ error, details }` on a thrown error (the `details`
field carries `error.message`).  The second component is the list of
upsert batches issued during the call. -/
def POST (env : Env) : HttpResponse × List (List TransformedArticle) :=
  let allArticles := (postLoop env).2
  if allArticles.length = 0 then
    ({ status := 404, body := Body.message false "No articles found" }, [])
  else
    match insertArticles env allArticles with
    | (Except.ok _, reqs) =>
      ({ status := 200
         body := Body.message true
           ("Successfully processed " ++ toString allArticles.length ++ " articles") },
       reqs)
    | (Except.error e, reqs) =>
      ({ status := 500, body := Body.errorDetails "Failed to process articles" e }, reqs)

/-- Replacing the fetch outcome of one (language, keyword) pair by the
empty-success outcome (an ok response whose `news_results` is an empty
array), leaving every other outcome unchanged. -/
def withEmptyOutcome (env : Env) (lang kw : String) : Env :=
  { env with
    fetchOutcome := fun l k =>
      if l = lang ∧ k = kw then FetchStep.ok (NewsField.arr [])
      else env.fetchOutcome l k }

theorem innerLoop_spec (env : Env) (lang : String) (kws : List String)
    (acc : List Event × List Article) :
    innerLoop env lang kws acc =
      (acc.1 ++ kws.flatMap (fun kw => [Event.request lang kw, Event.pause 1000]),
       acc.2 ++ kws.flatMap (fun kw => fetchArticles env.now (env.fetchOutcome lang kw))) := by
  induction kws generalizing acc with
  | nil => simp [innerLoop]
  | cons k ks ih =>
    simp only [innerLoop, List.foldl_cons] at *
    rw [ih]
    simp [List.flatMap_cons, List.append_assoc]

theorem postLoop_spec (env : Env) :
    postLoop env =
      (catalogPairs.flatMap (fun p => [Event.request p.1 p.2, Event.pause 1000]),
       catalogPairs.flatMap (fun p => fetchArticles env.now (env.fetchOutcome p.1 p.2))) := by
  have general :
      ∀ (cat : List (String × List String)) (acc : List Event × List Article),
        cat.foldl (fun a e => innerLoop env e.1 e.2 a) acc =
          (acc.1 ++ (cat.flatMap (fun e => e.2.map (fun kw => (e.1, kw)))).flatMap
              (fun p => [Event.request p.1 p.2, Event.pause 1000]),
           acc.2 ++ (cat.flatMap (fun e => e.2.map (fun kw => (e.1, kw)))).flatMap
              (fun p => fetchArticles env.now (env.fetchOutcome p.1 p.2))) := by
    intro cat
    induction cat with
    | nil => intro acc; simp
    | cons e es ih =>
      intro acc
      simp only [List.foldl_cons, List.flatMap_cons]
      rw [ih, innerLoop_spec]
      simp [List.flatMap_append, List.flatMap_map, List.append_assoc]
  have h := general keywords ([], [])
  simpa [postLoop, catalogPairs] using h

theorem flatMap_eq_nil_of_forall {α β : Type} (l : List α) (f : α → List β)
    (h : ∀ a ∈ l, f a = []) : l.flatMap f = [] := by
  induction l with
  | nil => rfl
  | cons a t ih =>
    rw [List.flatMap_cons, h a (by simp), ih (fun b hb => h b (by simp [hb]))]
    rfl

theorem flatMap_congr_of_forall {α β : Type} (l : List α) (f g : α → List β)
    (h : ∀ a ∈ l, f a = g a) : l.flatMap f = l.flatMap g := by
  induction l with
  | nil => rfl
  | cons a t ih =>
    rw [List.flatMap_cons, List.flatMap_cons, h a (by simp),
      ih (fun b hb => h b (by simp [hb]))]

theorem upsertRows_url_mono (batch : List TransformedArticle)
    (store : List TransformedArticle) (u : String)
    (h : store.any (fun r => r.url = u) = true) :
    (upsertRows store batch).any (fun r => r.url = u) = true := by
  induction batch generalizing store with
  | nil => exact h
  | cons row rest ih =>
    simp only [upsertRows, List.foldl_cons]
    by_cases hc : (store.any fun r => r.url = row.url) = true
    · rw [if_pos hc]
      exact ih store h
    · rw [if_neg hc]
      exact ih (store ++ [row]) (by simp only [List.any_append, h, Bool.true_or])

theorem upsertRows_url_self (batch : List TransformedArticle)
    (store : List TransformedArticle) (row : TransformedArticle)
    (h : row ∈ batch) :
    (upsertRows store batch).any (fun r => r.url = row.url) = true := by
  induction batch generalizing store with
  | nil => cases h
  | cons b rest ih =>
    simp only [upsertRows, List.foldl_cons]
    rcases List.mem_cons.mp h with heq | hmem
    · subst heq
      by_cases hc : (store.any fun r => r.url = row.url) = true
      · rw [if_pos hc]
        exact upsertRows_url_mono rest store row.url hc
      · rw [if_neg hc]
        apply upsertRows_url_mono
        simp [List.any_append]
    · by_cases hc : (store.any fun r => r.url = b.url) = true
      · rw [if_pos hc]
        exact ih store hmem
      · rw [if_neg hc]
        exact ih (store ++ [b]) hmem

theorem upsertRows_of_all_present (batch : List TransformedArticle)
    (store : List TransformedArticle)
    (h : ∀ row ∈ batch, store.any (fun r => r.url = row.url) = true) :
    upsertRows store batch = store := by
  induction batch with
  | nil => rfl
  | cons b rest ih =>
    simp only [upsertRows, List.foldl_cons, h b (by simp), if_true]
    exact ih (fun row hr => h row (by simp [hr]))

theorem upsertRows_idem (store batch : List TransformedArticle) :
    upsertRows (upsertRows store batch) batch = upsertRows store batch := by
  apply upsertRows_of_all_present
  intro row hr
  exact upsertRows_url_self batch store row hr

theorem upsertRows_nodup (batch : List TransformedArticle)
    (store : List TransformedArticle)
    (h : (store.map TransformedArticle.url).Nodup) :
    ((upsertRows store batch).map TransformedArticle.url).Nodup := by
  induction batch generalizing store with
  | nil => exact h
  | cons b rest ih =>
    simp only [upsertRows, List.foldl_cons]
    by_cases hc : (store.any fun r => r.url = b.url) = true
    · rw [if_pos hc]
      exact ih store h
    · rw [if_neg hc]
      apply ih
      rw [List.map_append, List.nodup_append]
      refine ⟨h, by simp, ?_⟩
      intro u hu hub
      simp only [List.map_cons, List.map_nil, List.mem_singleton] at hub
      subst hub
      rcases List.mem_map.mp hu with ⟨r, hr, hru⟩
      apply hc
      rw [List.any_eq_true]
      exact ⟨r, hr, by simp [hru]⟩

theorem insertArticles_requests_le_one (env : Env) (articles : List Article) :
    (insertArticles env articles).2.length ≤ 1 := by
  unfold insertArticles
  by_cases h0 : articles.length = 0
  · simp [h0]
  · simp only [h0, if_false]
    cases env.ensureError with
    | some e => simp
    | none =>
      simp only
      cases articles.mapM (transformArticle env.parseDate env.now) with
      | error e => simp
      | ok rows =>
        cases env.upsertError with
        | some e => simp
        | none => simp

/-- A concrete raw result used by witnesses. -/
def rawSample : SerpApiNewsResult :=
  { title := "Title"
    link := "https://example.com/a"
    snippet := "Snippet"
    date := "2024-05-01"
    source := some (RawSource.str "Agency") }

/-- The article the normaliser produces from `rawSample` at time T0. -/
def articleSample : Article :=
  { title := "Title"
    link := "https://example.com/a"
    snippet := "Snippet"
    date := "2024-05-01"
    source := "Agency"
    created_at := "T0" }

/-- The row the projection produces from `articleSample` in `envC5`. -/
def rowSample : TransformedArticle :=
  { url := "https://example.com/a"
    title := "Title"
    description := "Snippet"
    published_at := "2024-05-01T00:00:00.000Z"
    created_at := "T0" }

/-- Claim C1 is refuted at the input where `source` is an object whose
nested `title` field is present and is the empty string: the claim
predicts that the produced source is that title — the empty string — but
the normaliser produces the sentinel "Unknown", because the JavaScript
`||` in the source treats the empty string as falsy. -/
theorem C1_counterexample :
    normalizeSource (some (RawSource.obj (some ""))) = "Unknown" ∧
    ¬ normalizeSource (some (RawSource.obj (some ""))) = "" := by
  exact ⟨rfl, by decide⟩

/-- Claim C1 (amended): the normaliser in `fetchArticles` maps a
plain-string source to that string (even when empty), an object source
with a nonempty nested title to that title, an object source whose title
is absent or is the empty string to "Unknown", and an absent source to
"Unknown"; and the article produced from any raw result carries exactly
this normalisation of its source field. -/
theorem C1_source_normalization (s t now : String) (r : SerpApiNewsResult)
    (ht : t ≠ "") :
    normalizeSource (some (RawSource.str s)) = s ∧
    normalizeSource (some (RawSource.obj (some t))) = t ∧
    normalizeSource (some (RawSource.obj (some ""))) = "Unknown" ∧
    normalizeSource (some (RawSource.obj none)) = "Unknown" ∧
    normalizeSource none = "Unknown" ∧
    (normalizeResult now r).source = normalizeSource r.source := by
  refine ⟨rfl, ?_, rfl, rfl, rfl, rfl⟩
  simp [normalizeSource, ht]

/-- Witness for the amended C1 at concrete inputs. -/
theorem C1_witness :
    ("BBC" : String) ≠ "" ∧
    (normalizeSource (some (RawSource.str "Reuters")) = "Reuters" ∧
     normalizeSource (some (RawSource.obj (some "BBC"))) = "BBC" ∧
     normalizeSource (some (RawSource.obj (some ""))) = "Unknown" ∧
     normalizeSource (some (RawSource.obj none)) = "Unknown" ∧
     normalizeSource none = "Unknown" ∧
     (normalizeResult "T0" rawSample).source = normalizeSource rawSample.source) :=
  ⟨by decide, C1_source_normalization "Reuters" "BBC" "T0" rawSample (by decide)⟩

/-- Claim C10: the `hl` locale parameter is "es" for every language tag
other than "arabic" and "french", including tags outside the three-tag
catalog; only "arabic" maps to "ar" and only "french" maps to "fr"; and
the request parameter list carries the derived locale under the `hl`
key. -/
theorem C10_locale_mapping (language apiKey kw : String)
    (h1 : language ≠ "arabic") (h2 : language ≠ "french") :
    hlParam language = "es" ∧
    ("hl", "es") ∈ searchParams apiKey kw language ∧
    hlParam "arabic" = "ar" ∧
    hlParam "french" = "fr" := by
  have hes : hlParam language = "es" := by simp [hlParam, h1, h2]
  refine ⟨hes, ?_, rfl, rfl⟩
  simp [searchParams, hes]

/-- Witness for C10 at a language tag outside the catalog. -/
theorem C10_witness :
    ("german" : String) ≠ "arabic" ∧ ("german" : String) ≠ "french" ∧
    (hlParam "german" = "es" ∧
     ("hl", "es") ∈ searchParams "key" "frigate" "german" ∧
     hlParam "arabic" = "ar" ∧
     hlParam "french" = "fr") :=
  ⟨by decide, by decide,
   C10_locale_mapping "german" "key" "frigate" (by decide) (by decide)⟩

/-- Claim C7 concerns a code bug: the table-ensure function as written
never performs the trivial read and never issues the conditional
schema-creation request.  For every outcome of the read probe and of the
creation request — including when the table exists and the trivial read
would have succeeded — the call fails with the reference error raised by
its first statement, which names an undefined `response` (and the guard
below it an undefined `error`).  The claimed read-iff-create behaviour is
exhibited by `createArticlesTableIntended`, the evident intent of the
mangled body. -/
theorem C7_createArticlesTable_always_throws (readError createError : Option String) :
    createArticlesTable readError createError =
      Except.error "ReferenceError: response is not defined" ∧
    (∀ b : Bool, createArticlesTable readError createError ≠ Except.ok b) ∧
    (createArticlesTableIntended readError createError = Except.ok true ↔
      readError ≠ none ∧ createError = none) ∧
    (createArticlesTableIntended readError createError = Except.ok false ↔
      readError = none) ∧
    (∀ e : String, createArticlesTableIntended readError createError = Except.error e ↔
      readError ≠ none ∧ createError = some e) := by
  constructor
  · rfl
  constructor
  · intro b h
    cases h
  refine ⟨?_, ?_, ?_⟩ <;>
    cases readError <;> cases createError <;>
      simp [createArticlesTableIntended]

/-- Claim C9: one pipeline run issues exactly 20 search requests — 6 for
Arabic, 7 for French, 7 for Spanish — strictly sequentially in catalog
order, and the event trace of the keyword loop is precisely the catalog
pairs in declaration order, each request immediately followed by a
`delay(1000)` pause before the next. -/
theorem C9_request_schedule (env : Env) :
    (postLoop env).1 =
      catalogPairs.flatMap (fun p => [Event.request p.1 p.2, Event.pause 1000]) ∧
    catalogPairs.length = 20 ∧
    (catalogPairs.filter (fun p => p.1 = "arabic")).length = 6 ∧
    (catalogPairs.filter (fun p => p.1 = "french")).length = 7 ∧
    (catalogPairs.filter (fun p => p.1 = "spanish")).length = 7 ∧
    (postLoop env).1.filterMap
        (fun ev => match ev with
          | Event.request l k => some (l, k)
          | Event.pause _ => none) = catalogPairs := by
  have h1 : (postLoop env).1 =
      catalogPairs.flatMap (fun p => [Event.request p.1 p.2, Event.pause 1000]) := by
    rw [postLoop_spec]
  refine ⟨h1, by decide, by decide, by decide, by decide, ?_⟩
  rw [h1]
  decide

/-- Claim C3: `fetchArticles` never raises — on a rejecting `fetch`, a
non-ok HTTP response, a rejecting JSON parse, a missing `news_results`
field, a non-array `news_results` field, and in general whenever its body
throws, it returns the empty list.  Consequently a failing (language,
keyword) pair contributes nothing while leaving every other keyword's
contribution unchanged: the accumulated articles of the run equal those of
the same run with the failing pair replaced by an empty-success
outcome. -/
theorem C3_soft_failure (now m errTxt : String) (env : Env) (lang kw : String)
    (hfail : isFailureStep (env.fetchOutcome lang kw) = true) :
    fetchArticles now (FetchStep.fetchThrow m) = [] ∧
    fetchArticles now (FetchStep.httpError errTxt) = [] ∧
    fetchArticles now (FetchStep.jsonThrow m) = [] ∧
    fetchArticles now (FetchStep.ok NewsField.missing) = [] ∧
    fetchArticles now (FetchStep.ok NewsField.notArray) = [] ∧
    (∀ o : FetchStep, fetchArticlesBody now o = Except.error m →
      fetchArticles now o = []) ∧
    fetchArticles env.now (env.fetchOutcome lang kw) = [] ∧
    (postLoop env).2 = (postLoop (withEmptyOutcome env lang kw)).2 := by
  refine ⟨rfl, rfl, rfl, rfl, rfl, ?_, ?_, ?_⟩
  · intro o ho
    unfold fetchArticles
    rw [ho]
  · exact fetchArticles_of_failure env.now _ hfail
  · rw [postLoop_spec, postLoop_spec]
    simp only
    apply flatMap_congr_of_forall
    intro p hp
    by_cases hpk : p.1 = lang ∧ p.2 = kw
    · have h1 : fetchArticles env.now (env.fetchOutcome p.1 p.2) = [] := by
        rw [hpk.1, hpk.2]
        exact fetchArticles_of_failure env.now _ hfail
      have h2 : (withEmptyOutcome env lang kw).fetchOutcome p.1 p.2 =
          FetchStep.ok (NewsField.arr []) := by
        simp [withEmptyOutcome, hpk.1, hpk.2]
      rw [h1, h2]
      rfl
    · have h2 : (withEmptyOutcome env lang kw).fetchOutcome p.1 p.2 =
          env.fetchOutcome p.1 p.2 := by
        simp only [withEmptyOutcome]
        rw [if_neg hpk]
      rw [h2]
      rfl

/-- A concrete environment for the C3 witness: every Arabic keyword fails
with HTTP 500, every other keyword succeeds with one article. -/
def envC3 : Env :=
  { now := "T0"
    parseDate := fun _ => some "2024-05-01T00:00:00.000Z"
    fetchOutcome := fun l _ =>
      if l = "arabic" then FetchStep.httpError "HTTP 500"
      else FetchStep.ok (NewsField.arr [rawSample])
    ensureError := none
    upsertError := none
    store := [] }

/-- Witness for C3: in `envC3` the first Arabic keyword fails, and the run
accumulates exactly what it would accumulate had that keyword returned an
empty success. -/
theorem C3_witness :
    isFailureStep (envC3.fetchOutcome "arabic" "البحرية الملكية") = true ∧
    (postLoop envC3).2 =
      (postLoop (withEmptyOutcome envC3 "arabic" "البحرية الملكية")).2 :=
  ⟨rfl,
   (C3_soft_failure "T0" "m" "e" envC3 "arabic" "البحرية الملكية"
      rfl).2.2.2.2.2.2.2⟩

/-- Claim C4: when every keyword across all three languages yields zero
articles, POST answers HTTP 404 with body success false and message
"No articles found", issues no upsert request to the data store, and
returns this response normally rather than throwing. -/
theorem C4_no_articles_found (env : Env)
    (h : ∀ p ∈ catalogPairs, fetchArticles env.now (env.fetchOutcome p.1 p.2) = []) :
    POST env = ({ status := 404, body := Body.message false "No articles found" }, []) := by
  have harts : (postLoop env).2 = [] := by
    rw [postLoop_spec]
    exact flatMap_eq_nil_of_forall _ _ h
  unfold POST
  simp only [harts]
  rfl

/-- A concrete environment for the C4 witness: every keyword fails with
HTTP 500, so every keyword contributes zero articles. -/
def envC4 : Env :=
  { now := "T0"
    parseDate := fun _ => none
    fetchOutcome := fun _ _ => FetchStep.httpError "HTTP 500"
    ensureError := none
    upsertError := none
    store := [] }

/-- Witness for C4 at the all-failing environment. -/
theorem C4_witness :
    POST envC4 = ({ status := 404, body := Body.message false "No articles found" }, []) :=
  C4_no_articles_found envC4 (fun p _ => rfl)

/-- Claim C5: on a run whose accumulated sequence is nonempty and whose
insert path completes, POST answers HTTP 200 with a message reporting
exactly the accumulated count.  The store contents are universally
quantified, so the reported total is the same however many of the rows the
upsert actually inserted versus silently ignored as duplicates. -/
theorem C5_success_reports_processed_count (env : Env)
    (rows : List TransformedArticle)
    (hne : (postLoop env).2 ≠ [])
    (hens : env.ensureError = none)
    (hup : env.upsertError = none)
    (htr : ((postLoop env).2).mapM (transformArticle env.parseDate env.now) =
      Except.ok rows) :
    POST env =
      ({ status := 200
         body := Body.message true
           ("Successfully processed " ++ toString ((postLoop env).2).length ++ " articles") },
       [rows]) := by
  have hlen : ¬ ((postLoop env).2).length = 0 := by
    simpa [List.length_eq_zero] using hne
  unfold POST insertArticles
  rw [if_neg hlen, if_neg hlen, hens, htr, hup]

/-- A concrete environment for the C5 and C6 witnesses: every keyword
succeeds with one copy of `rawSample`, dates parse, the data store works,
and a row with the same url is already present, so the upsert ignores
every row of the batch as a duplicate. -/
def envC5 : Env :=
  { now := "T0"
    parseDate := fun _ => some "2024-05-01T00:00:00.000Z"
    fetchOutcome := fun _ _ => FetchStep.ok (NewsField.arr [rawSample])
    ensureError := none
    upsertError := none
    store := [rowSample] }

/-- Witness for C5: all 20 accumulated articles are duplicates of the row
already in the store, yet the reported count is 20. -/
theorem C5_witness :
    POST envC5 =
      ({ status := 200
         body := Body.message true
           ("Successfully processed " ++ toString ((postLoop envC5).2).length ++ " articles") },
       [List.replicate 20 rowSample]) :=
  C5_success_reports_processed_count envC5 (List.replicate 20 rowSample)
    (by decide) rfl rfl rfl

/-- Claim C6: `insertArticles` projects every article by the fixed field
mapping — link to url, snippet to description, parsed date to
published_at, title passed through, created_at restamped with the
ingestion time — and issues exactly one batched upsert request; the upsert
keyed on url silently ignores rows whose url already exists, so upserting
the same batch a second time changes nothing and url-uniqueness of the
store is preserved: re-ingesting the same link never duplicates a row. -/
theorem C6_projection_and_idempotent_upsert (env : Env) (arts : List Article)
    (rows : List TransformedArticle) (a : Article) (iso : String)
    (hne : arts ≠ [])
    (hens : env.ensureError = none)
    (htr : arts.mapM (transformArticle env.parseDate env.now) = Except.ok rows)
    (hdate : a.date ≠ "") (hp : env.parseDate a.date = some iso) :
    transformArticle env.parseDate env.now a =
      Except.ok
        { url := a.link
          title := a.title
          description := a.snippet
          published_at := iso
          created_at := env.now } ∧
    (insertArticles env arts).2 = [rows] ∧
    upsertRows (upsertRows env.store rows) rows = upsertRows env.store rows ∧
    ((env.store.map TransformedArticle.url).Nodup →
      ((upsertRows env.store rows).map TransformedArticle.url).Nodup) := by
  refine ⟨?_, ?_, upsertRows_idem env.store rows,
    fun h => upsertRows_nodup rows env.store h⟩
  · unfold transformArticle
    rw [if_neg hdate, hp]
  · have hlen : ¬ arts.length = 0 := by
      simpa [List.length_eq_zero] using hne
    unfold insertArticles
    rw [if_neg hlen, hens, htr]
    cases env.upsertError <;> rfl

/-- Witness for C6 on a one-article batch in `envC5`. -/
theorem C6_witness :
    transformArticle envC5.parseDate envC5.now articleSample =
      Except.ok
        { url := articleSample.link
          title := articleSample.title
          description := articleSample.snippet
          published_at := "2024-05-01T00:00:00.000Z"
          created_at := envC5.now } ∧
    (insertArticles envC5 [articleSample]).2 = [[rowSample]] ∧
    upsertRows (upsertRows envC5.store [rowSample]) [rowSample] =
      upsertRows envC5.store [rowSample] ∧
    ((envC5.store.map TransformedArticle.url).Nodup →
      ((upsertRows envC5.store [rowSample]).map TransformedArticle.url).Nodup) :=
  C6_projection_and_idempotent_upsert envC5 [articleSample] [rowSample]
    articleSample "2024-05-01T00:00:00.000Z" (by decide) rfl rfl
    (by decide) rfl

/-- A concrete environment for the C2 counterexample and witness: the
JavaScript Date parser is consulted only on the string "not-a-date", on
which `new Date` yields an Invalid Date, so the model maps every consulted
string to `none`. -/
def envC2 : Env :=
  { now := "T0"
    parseDate := fun _ => none
    fetchOutcome := fun _ _ => FetchStep.ok (NewsField.arr [])
    ensureError := none
    upsertError := none
    store := [] }

/-- An otherwise valid article whose date field is present but does not
parse as a timestamp. -/
def badDateArticle : Article :=
  { title := "Title"
    link := "https://example.com/a"
    snippet := "Snippet"
    date := "not-a-date"
    source := "Agency"
    created_at := "T0" }

/-- An article whose date field is empty (the falsy case of the ternary in
the projection). -/
def emptyDateArticle : Article :=
  { title := "Title2"
    link := "https://example.com/b"
    snippet := "Snippet2"
    date := ""
    source := "Agency"
    created_at := "T0" }

/-- Claim C2 is refuted: on a batch holding an otherwise valid article
whose date field is present but unparsable, `insertArticles` does not
succeed and produces no fallback row — the projection calls
`toISOString()` on an Invalid Date, which throws the RangeError, so the
whole batched write fails and no upsert request is issued. -/
theorem C2_counterexample :
    insertArticles envC2 [badDateArticle] = (Except.error "Invalid time value", []) ∧
    (insertArticles envC2 [badDateArticle]).1.isOk = false := by
  exact ⟨rfl, rfl⟩

/-- Claim C2 (amended): the fallback of published_at to the ingestion time
applies exactly when the date field is absent or empty (falsy); an article
whose date is present but unparsable makes `toISOString()` throw, so the
projection errors and the whole `insertArticles` call fails with that
error, issuing no upsert request, rather than writing a fallback row. -/
theorem C2_date_fallback_only_when_empty (env : Env) (a b : Article)
    (ha : a.date = "") (hb : b.date ≠ "") (hpb : env.parseDate b.date = none)
    (hens : env.ensureError = none) :
    transformArticle env.parseDate env.now a =
      Except.ok
        { url := a.link
          title := a.title
          description := a.snippet
          published_at := env.now
          created_at := env.now } ∧
    transformArticle env.parseDate env.now b = Except.error "Invalid time value" ∧
    insertArticles env [b] = (Except.error "Invalid time value", []) := by
  have h2 : transformArticle env.parseDate env.now b =
      Except.error "Invalid time value" := by
    unfold transformArticle
    rw [if_neg hb, hpb]
  refine ⟨?_, h2, ?_⟩
  · unfold transformArticle
    rw [if_pos ha]
  · have hm : ([b].mapM (transformArticle env.parseDate env.now) :
        Except String (List TransformedArticle)) = Except.error "Invalid time value" := by
      rw [List.mapM_cons, h2]
      rfl
    unfold insertArticles
    simp only [List.length_cons, List.length_nil, hens, hm]
    rfl

/-- Witness for the amended C2 at concrete articles. -/
theorem C2_witness :
    transformArticle envC2.parseDate envC2.now emptyDateArticle =
      Except.ok
        { url := emptyDateArticle.link
          title := emptyDateArticle.title
          description := emptyDateArticle.snippet
          published_at := envC2.now
          created_at := envC2.now } ∧
    transformArticle envC2.parseDate envC2.now badDateArticle =
      Except.error "Invalid time value" ∧
    insertArticles envC2 [badDateArticle] = (Except.error "Invalid time value", []) :=
  C2_date_fallback_only_when_empty envC2 emptyDateArticle badDateArticle
    rfl (by decide) rfl rfl

/-- Claim C8: with a nonempty accumulated sequence, an error thrown by the
schema-ensure step yields the HTTP 500 response carrying the error
description with no upsert request issued; an error returned by the upsert
yields the same 500 response after the single upsert request; at most one
upsert request is ever issued (there is no retry); and under a nonempty
accumulation the status is never the 404 of the no-articles soft
failure. -/
theorem C8_fatal_errors_propagate (env : Env) (e : String)
    (hne : (postLoop env).2 ≠ []) :
    (env.ensureError = some e →
      POST env =
        ({ status := 500, body := Body.errorDetails "Failed to process articles" e }, [])) ∧
    (∀ rows : List TransformedArticle, env.ensureError = none →
      env.upsertError = some e →
      ((postLoop env).2).mapM (transformArticle env.parseDate env.now) = Except.ok rows →
      POST env =
        ({ status := 500, body := Body.errorDetails "Failed to process articles" e },
         [rows])) ∧
    (POST env).2.length ≤ 1 ∧
    (POST env).1.status ≠ 404 := by
  have hlen : ¬ ((postLoop env).2).length = 0 := by
    simpa [List.length_eq_zero] using hne
  refine ⟨?_, ?_, ?_, ?_⟩
  · intro hens
    unfold POST insertArticles
    rw [if_neg hlen, if_neg hlen, hens]
  · intro rows hens hup htr
    unfold POST insertArticles
    rw [if_neg hlen, if_neg hlen, hens, htr, hup]
  · unfold POST
    rw [if_neg hlen]
    cases hins : insertArticles env (postLoop env).2 with
    | mk out reqs =>
      cases out with
      | ok s =>
        have := insertArticles_requests_le_one env (postLoop env).2
        rw [hins] at this
        simpa using this
      | error er =>
        have := insertArticles_requests_le_one env (postLoop env).2
        rw [hins] at this
        simpa using this
  · unfold POST
    rw [if_neg hlen]
    cases insertArticles env (postLoop env).2 with
    | mk out reqs =>
      cases out with
      | ok s => simp
      | error er => simp

/-- A concrete environment for the C8 witness: fetching succeeds but the
schema-ensure step throws. -/
def envC8 : Env :=
  { now := "T0"
    parseDate := fun _ => some "2024-05-01T00:00:00.000Z"
    fetchOutcome := fun _ _ => FetchStep.ok (NewsField.arr [rawSample])
    ensureError := some "db down"
    upsertError := none
    store := [] }

/-- Witness for C8: the schema-ensure error surfaces as the 500 response
with its description and no upsert request. -/
theorem C8_witness :
    POST envC8 =
      ({ status := 500, body := Body.errorDetails "Failed to process articles" "db down" },
       []) :=
  (C8_fatal_errors_propagate envC8 "db down" (by decide)).1 rfl

end VeilleMarine
